import Mathlib

/-!
Verification of the signal-classification and report engine of the
SleepSense repository, shallowly embedded from `src/lib/reportLogic.ts`.

JavaScript numbers are modelled as exact rationals (`ℚ`).  `Math.round`
is Mathlib's `round` (both are `⌊x + 1/2⌋`).  The only genuinely
irrational operation in the source, `Math.sqrt` inside `stdDev`, is
abstracted as an explicit function parameter `sq : ℚ → ℚ`; every
property proved below depends only on the fact that a square root of a
non-negative number is non-negative, which is supplied as a hypothesis
where needed.  The `id`/`createdAt` fields of a report come from
`uuid()` and the wall clock in the source; they are effects outside the
pure computation and are omitted from the embedded record.
-/

namespace SleepSense

/-- One sensor sample (`SensorPoint` in `src/types/index.ts`):
timestamp in ms, raw EMG ADC count, heart rate in bpm, temperature. -/
structure SensorPoint where
  t : ℚ
  emg : ℚ
  hr : ℚ
  temp : ℚ
deriving DecidableEq

/-! Constants from `src/lib/reportLogic.ts` lines 15–28. -/

def EMG_RELAXED_ADC : ℚ := 165
def EMG_TALKING_ADC : ℚ := 250
def EMG_MAX_ADC : ℚ := 1024
def EMG_THRESHOLD : ℚ := EMG_TALKING_ADC
def MIN_CLENCH_MS : ℚ := 400
def PRECEDE_WINDOW_MS : ℚ := 15000
def PRECEDE_GAP_MS : ℚ := 500
def ACTIVATION_PRECEDE : ℚ := 5
def AROUSAL_DETECT_PCT : ℚ := 12
def AROUSAL_MIN_MS : ℚ := 2000
def AROUSAL_FOLLOW_MS : ℚ := 15000

/-- `emgToIntensity` (lines 36–39): raw ADC to 0–100 % intensity. -/
def emgToIntensity (adc : ℚ) : ℚ :=
  if adc ≤ 0 then 0 else min 100 (adc / EMG_MAX_ADC * 100)

/-- `hrToActivation` (lines 66–69): percentage deviation of `hr` above
`baseline`, guarded against non-positive baselines. -/
def hrToActivation (hr baseline : ℚ) : ℚ :=
  if baseline ≤ 0 then 0 else max 0 ((hr - baseline) / baseline * 100)

/-- A raw run-length episode.  The `peak` field is called `peakEMG` in
the source's `RawClenchEvent` and `peakActivation` in its
`ArousalOnlyEvent`; both records are `{ startMs, endMs, peak value }`. -/
structure RawEvent where
  startMs : ℚ
  endMs : ℚ
  peak : ℚ
deriving DecidableEq

/-- The run-length-above-threshold loop shared verbatim by
`detectClenches` (lines 79–97) and the arousal-peak loop inside
`classifyEvents` (lines 163–179): state `active`/`startMs`/`peak`, one
forward pass, minimum-duration gate on close, final close at the last
sample's timestamp (`lastT`).  The two source loops differ only in the
extracted scalar `f`, the threshold `th` and the gate `gate`. -/
def segAux (f : SensorPoint → ℚ) (th gate : ℚ) :
    Bool → ℚ → ℚ → ℚ → List SensorPoint → List RawEvent
  | active, startMs, peak, lastT, [] =>
      if active = true ∧ gate ≤ lastT - startMs then [⟨startMs, lastT, peak⟩] else []
  | active, startMs, peak, lastT, p :: rest =>
      if th ≤ f p then
        if active then segAux f th gate true startMs (max peak (f p)) p.t rest
        else segAux f th gate true p.t (f p) p.t rest
      else if active then
        (if gate ≤ p.t - startMs then [⟨startMs, p.t, peak⟩] else [])
          ++ segAux f th gate false startMs 0 p.t rest
      else segAux f th gate false startMs peak p.t rest

/-- Entry point of the segmentation loop with the source's initial
state `active = false, startMs = 0, peak = 0`. -/
def segment (f : SensorPoint → ℚ) (th gate : ℚ) (data : List SensorPoint) : List RawEvent :=
  segAux f th gate false 0 0 0 data

/-- `detectClenches` (lines 79–97). -/
def detectClenches (data : List SensorPoint) : List RawEvent :=
  segment (fun p => p.emg) EMG_THRESHOLD MIN_CLENCH_MS data

/-- `median` (lines 99–103): sort ascending, take the element at index
`⌊length / 2⌋`; `0` on the empty list. -/
def median (values : List ℚ) : ℚ :=
  if values = [] then 0
  else
    let s := List.insertionSort (· ≤ ·) values
    s.getD (s.length / 2) 0

/-- `stdDev` (lines 105–109): population standard deviation, with
`Math.sqrt` abstracted as `sq`. -/
def stdDev (sq : ℚ → ℚ) (values : List ℚ) : ℚ :=
  if values = [] then 0
  else
    let mean := values.sum / (values.length : ℚ)
    sq ((values.map (fun b => (b - mean) ^ 2)).sum / (values.length : ℚ))

/-- `Math.max(...xs)` over a non-empty spread argument list; the source
only applies it to non-empty lists. -/
def listMax : List ℚ → ℚ
  | [] => 0
  | x :: xs => xs.foldl max x

/-- The heart-rate baseline of `classifyEvents` (lines 144–145): the
`median` of all `hr` values of the sample set. -/
def hrBaselineOf (data : List SensorPoint) : ℚ :=
  median (data.map (fun d => d.hr))

/-- Lines 149–152: maximum activation over the samples in the
backward-looking window `[startMs - PRECEDE_WINDOW_MS, startMs -
PRECEDE_GAP_MS)`, or `0` when the window holds no sample. -/
def precedingMaxAct (data : List SensorPoint) (startMs : ℚ) : ℚ :=
  let preData := data.filter (fun d =>
    decide (startMs - PRECEDE_WINDOW_MS ≤ d.t) && decide (d.t < startMs - PRECEDE_GAP_MS))
  if preData = [] then 0
  else listMax (preData.map (fun d => hrToActivation d.hr (hrBaselineOf data)))

/-- The two labels a classified clench event can carry. -/
inductive ClenchType where
  | arousalLinked
  | isolated
deriving DecidableEq

/-- `ClassifiedClenchEvent` (lines 113–121). -/
structure ClassifiedClenchEvent where
  startMs : ℚ
  endMs : ℚ
  peakEMG : ℚ
  type : ClenchType
  peakIntensity : ℚ
  durationSec : ℚ
  severityLabel : String
deriving DecidableEq

/-- The per-event body of the `rawClenches.map` in `classifyEvents`
(lines 148–160). -/
def classifyOne (data : List SensorPoint) (ev : RawEvent) : ClassifiedClenchEvent :=
  let maxAct := precedingMaxAct data ev.startMs
  let ty := if ACTIVATION_PRECEDE < maxAct then ClenchType.arousalLinked else ClenchType.isolated
  let peakIntensity := emgToIntensity ev.peak
  { startMs := ev.startMs
    endMs := ev.endMs
    peakEMG := ev.peak
    type := ty
    peakIntensity := peakIntensity
    durationSec := (ev.endMs - ev.startMs) / 1000
    severityLabel :=
      if 75 ≤ peakIntensity then "Severe" else if 50 ≤ peakIntensity then "Moderate" else "Mild" }

/-- The arousal-peak loop of `classifyEvents` (lines 163–179): the same
run-length segmentation applied to `hrToActivation` with the standalone
threshold and its own minimum duration. -/
def arousalPeaksOf (data : List SensorPoint) : List RawEvent :=
  segment (fun p => hrToActivation p.hr (hrBaselineOf data)) AROUSAL_DETECT_PCT AROUSAL_MIN_MS data

/-- Line 182: does some raw clench start within the look-back/follow
window surrounding the arousal episode `ap`. -/
def clenchNear (rawClenches : List RawEvent) (ap : RawEvent) : Bool :=
  rawClenches.any (fun ev =>
    decide (ap.startMs - 5000 ≤ ev.startMs) && decide (ev.startMs ≤ ap.endMs + AROUSAL_FOLLOW_MS))

/-- Result record of `classifyEvents`. -/
structure ClassifyResult where
  clenchEvents : List ClassifiedClenchEvent
  arousalOnlyEvents : List RawEvent
deriving DecidableEq

/-- `classifyEvents` (lines 137–186). -/
def classifyEvents (data : List SensorPoint) : ClassifyResult :=
  if data = [] then ⟨[], []⟩
  else
    { clenchEvents := (detectClenches data).map (classifyOne data)
      arousalOnlyEvents :=
        (arousalPeaksOf data).filter (fun ap => !clenchNear (detectClenches data) ap) }

/-- `ReportRecord` (from `src/types/index.ts`), without the effectful
`id`/`createdAt` fields. -/
structure ReportRecord where
  sessionId : String
  userId : String
  duration : ℚ
  clenchCount : ℕ
  stressLikelihood : ℤ
  sleepQualityScore : ℤ
  avgHR : ℚ
  hrVariability : ℚ
  peakEMG : ℤ
  avgTemp : ℚ
  tempDrift : ℚ
deriving DecidableEq

/-- `data[0].temp` under the source's non-empty guard. -/
def tempFirst (data : List SensorPoint) : ℚ :=
  (data.head?.map (fun d => d.temp)).getD 0

/-- `data[data.length - 1].temp` under the source's non-empty guard. -/
def tempLast (data : List SensorPoint) : ℚ :=
  (data.getLast?.map (fun d => d.temp)).getD 0

/-- `computeReport` (lines 190–229). -/
def computeReport (sq : ℚ → ℚ) (sessionId userId : String)
    (data : List SensorPoint) (durationSeconds : ℚ) : ReportRecord :=
  if data = [] then
    { sessionId := sessionId, userId := userId, duration := durationSeconds
      clenchCount := 0, stressLikelihood := 0, sleepQualityScore := 85
      avgHR := 65, hrVariability := 2, peakEMG := 0, avgTemp := 36.5, tempDrift := 0 }
  else
    let clenchEvents := (classifyEvents data).clenchEvents
    let hrValues := data.map (fun d => d.hr)
    let avgHR := hrValues.sum / (hrValues.length : ℚ)
    let hrVariability := stdDev sq hrValues
    let peakEMG := listMax (data.map (fun d => d.emg))
    let avgTemp := (data.map (fun d => d.temp)).sum / (data.length : ℚ)
    let tempDrift := |tempLast data - tempFirst data|
    let arousalLinkedCount :=
      (clenchEvents.filter (fun e => e.type == ClenchType.arousalLinked)).length
    let stressLikelihood : ℤ :=
      if clenchEvents.length = 0 then 0
      else round (((arousalLinkedCount : ℚ) / (clenchEvents.length : ℚ)) * 100)
    let clenchPenalty := min 40 ((clenchEvents.length : ℚ) * 2)
    let hrVarPenalty := min 30 (hrVariability * 0.5)
    let tempPenalty := min 20 (tempDrift * 100)
    let sleepQualityScore : ℤ :=
      max 0 (round ((100 : ℚ) - clenchPenalty - hrVarPenalty - tempPenalty))
    { sessionId := sessionId, userId := userId, duration := durationSeconds
      clenchCount := clenchEvents.length
      stressLikelihood := stressLikelihood
      sleepQualityScore := sleepQualityScore
      avgHR := (round (avgHR * 10) : ℚ) / 10
      hrVariability := (round (hrVariability * 10) : ℚ) / 10
      peakEMG := round peakEMG
      avgTemp := (round (avgTemp * 100) : ℚ) / 100
      tempDrift := (round (tempDrift * 100) : ℚ) / 100 }

/-- `LiveStats` (lines 233–241). -/
structure LiveStats where
  clenchCount : ℕ
  stressLikelihood : ℤ
  sleepQualityScore : ℤ
  avgHR : ℚ
  peakEMG : ℤ
  avgTemp : ℚ
  isClenching : Bool
deriving DecidableEq

/-- `computeLiveStats` (lines 247–280); `precomputed ?? classifyEvents(data).clenchEvents`
is `Option.getD`. -/
def computeLiveStats (sq : ℚ → ℚ) (data : List SensorPoint)
    (precomputed : Option (List ClassifiedClenchEvent)) : LiveStats :=
  if data = [] then
    { clenchCount := 0, stressLikelihood := 0, sleepQualityScore := 100
      avgHR := 0, peakEMG := 0, avgTemp := 0, isClenching := false }
  else
    let clenchEvents := precomputed.getD (classifyEvents data).clenchEvents
    let hrValues := data.map (fun d => d.hr)
    let hrVariability := stdDev sq hrValues
    let avgHR := hrValues.sum / (hrValues.length : ℚ)
    let peakEMG := listMax (data.map (fun d => d.emg))
    let avgTemp := (data.map (fun d => d.temp)).sum / (data.length : ℚ)
    let tempDrift := |tempLast data - tempFirst data|
    let arousalLinkedCount :=
      (clenchEvents.filter (fun e => e.type == ClenchType.arousalLinked)).length
    let stressLikelihood : ℤ :=
      if clenchEvents.length = 0 then 0
      else round (((arousalLinkedCount : ℚ) / (clenchEvents.length : ℚ)) * 100)
    let clenchPenalty := min 40 ((clenchEvents.length : ℚ) * 2)
    let hrVarPenalty := min 30 (hrVariability * 0.5)
    let tempPenalty := min 20 (tempDrift * 100)
    let sleepQualityScore : ℤ :=
      max 0 (round ((100 : ℚ) - clenchPenalty - hrVarPenalty - tempPenalty))
    let lastP := data.getLast?.getD ⟨0, 0, 0, 0⟩
    { clenchCount := clenchEvents.length
      stressLikelihood := stressLikelihood
      sleepQualityScore := sleepQualityScore
      avgHR := (round (avgHR * 10) : ℚ) / 10
      peakEMG := round peakEMG
      avgTemp := (round (avgTemp * 100) : ℚ) / 100
      isClenching := EMG_THRESHOLD ≤ lastP.emg }

/-- Modelled from the spec: the sleep-quality formula as §4.4 and the
claim state it, a two-sided clamp of the rounded penalty sum to
`[0, 100]` (the source clamps from below only, line 219). -/
def specSleepQuality (episodeCount : ℕ) (hrStdDev tempDriftAbs : ℚ) : ℤ :=
  min 100 (max 0 (round ((100 : ℚ) - min 40 (2 * (episodeCount : ℚ))
    - min 30 (0.5 * hrStdDev) - min 20 (100 * tempDriftAbs))))

/-- Number of classified clench events of a sample set. -/
def clenchCountOf (data : List SensorPoint) : ℕ :=
  (classifyEvents data).clenchEvents.length

/-- Number of classified clench events labelled arousal-linked. -/
def arousalLinkedCountOf (data : List SensorPoint) : ℕ :=
  ((classifyEvents data).clenchEvents.filter (fun e => e.type == ClenchType.arousalLinked)).length

/-! Helper lemmas. -/

/-- Rounding is monotone on `ℚ`. -/
theorem round_mono_rat {x y : ℚ} (h : x ≤ y) : round x ≤ round y := by
  rw [round_eq, round_eq]
  exact Int.floor_le_floor (by linarith)

/-- The population standard deviation is non-negative as soon as the
abstracted square root sends non-negative inputs to non-negative
outputs, because the variance it is applied to is non-negative. -/
theorem stdDev_nonneg (sq : ℚ → ℚ) (hsq : ∀ x, 0 ≤ x → 0 ≤ sq x)
    (values : List ℚ) : 0 ≤ stdDev sq values := by
  unfold stdDev
  split
  · exact le_refl 0
  · refine hsq _ (div_nonneg ?_ (Nat.cast_nonneg _))
    refine List.sum_nonneg ?_
    intro x hx
    rcases List.mem_map.mp hx with ⟨b, _, rfl⟩
    positivity

/-- Claim C9 — `computeReport` on the empty sample list returns the
documented neutral defaults (quality 85, avg HR 65, etc.) without
failing. -/
theorem computeReport_empty_defaults (sq : ℚ → ℚ) (s u : String) (dur : ℚ) :
    computeReport sq s u [] dur =
      { sessionId := s, userId := u, duration := dur, clenchCount := 0
        stressLikelihood := 0, sleepQualityScore := 85, avgHR := 65
        hrVariability := 2, peakEMG := 0, avgTemp := 36.5, tempDrift := 0 } := rfl

/-- Claim C10 — `computeLiveStats` on the empty sample list returns its
own neutral defaults (quality 100, everything else 0, not clenching)
without failing, and its empty-input quality score differs from the 85
that `computeReport` returns on empty input. -/
theorem computeLiveStats_empty_defaults (sq : ℚ → ℚ)
    (pre : Option (List ClassifiedClenchEvent)) (s u : String) (dur : ℚ) :
    computeLiveStats sq [] pre =
      { clenchCount := 0, stressLikelihood := 0, sleepQualityScore := 100
        avgHR := 0, peakEMG := 0, avgTemp := 0, isClenching := false }
    ∧ (computeReport sq s u [] dur).sleepQualityScore = 85
    ∧ (computeLiveStats sq [] pre).sleepQualityScore
        ≠ (computeReport sq s u [] dur).sleepQualityScore := by
  refine ⟨rfl, rfl, ?_⟩
  show (100 : ℤ) ≠ 85
  decide

/-- Claim C8 — `emgToIntensity` is 0 on non-positive ADC counts, 100 at
or above the 1024 ceiling, linear `adc / 1024 * 100` in between,
monotone non-decreasing, and always within `[0, 100]`. -/
theorem emgToIntensity_spec (adc : ℚ) :
    (adc ≤ 0 → emgToIntensity adc = 0) ∧
    (EMG_MAX_ADC ≤ adc → emgToIntensity adc = 100) ∧
    (0 < adc → adc < EMG_MAX_ADC → emgToIntensity adc = adc / EMG_MAX_ADC * 100) ∧
    (∀ b, adc ≤ b → emgToIntensity adc ≤ emgToIntensity b) ∧
    0 ≤ emgToIntensity adc ∧ emgToIntensity adc ≤ 100 := by
  have hceil : EMG_MAX_ADC = (1024 : ℚ) := rfl
  have hval : ∀ x : ℚ, 0 < x → emgToIntensity x = min 100 (x / EMG_MAX_ADC * 100) := by
    intro x hx
    unfold emgToIntensity
    rw [if_neg (not_le.mpr hx)]
  have hnonneg : ∀ x : ℚ, 0 ≤ emgToIntensity x := by
    intro x
    unfold emgToIntensity
    split
    · exact le_refl 0
    · rename_i hx
      rw [hceil]
      have : (0 : ℚ) < x := lt_of_not_le hx
      positivity
  have hle100 : ∀ x : ℚ, emgToIntensity x ≤ 100 := by
    intro x
    unfold emgToIntensity
    split
    · norm_num
    · exact min_le_left _ _
  refine ⟨?_, ?_, ?_, ?_, hnonneg adc, hle100 adc⟩
  · intro h; unfold emgToIntensity; rw [if_pos h]
  · intro h
    have hpos : 0 < adc := lt_of_lt_of_le (by rw [hceil]; norm_num) h
    rw [hval adc hpos]
    refine min_eq_left ?_
    rw [hceil] at h ⊢
    rw [div_mul_eq_mul_div, le_div_iff (by norm_num : (0:ℚ) < 1024)]
    linarith
  · intro h1 h2
    rw [hval adc h1]
    refine min_eq_right ?_
    rw [hceil] at h2 ⊢
    rw [div_mul_eq_mul_div, div_le_iff (by norm_num : (0:ℚ) < 1024)]
    linarith
  · intro b hab
    by_cases ha : adc ≤ 0
    · unfold emgToIntensity
      rw [if_pos ha]
      exact hnonneg b
    · have hb : ¬ b ≤ 0 := fun hb => ha (le_trans hab hb)
      rw [hval adc (lt_of_not_le ha), hval b (lt_of_not_le hb)]
      refine min_le_min (le_refl _) ?_
      rw [hceil]
      gcongr

/-- Witness for C8 at concrete inputs: the ceiling clause at 2048 and
the linear clause at 512. -/
theorem emgToIntensity_spec_witness :
    (EMG_MAX_ADC ≤ (2048 : ℚ) ∧ emgToIntensity 2048 = 100) ∧
    ((0:ℚ) < 512 ∧ (512:ℚ) < EMG_MAX_ADC ∧ emgToIntensity 512 = 512 / EMG_MAX_ADC * 100) := by
  have h1 : EMG_MAX_ADC ≤ (2048 : ℚ) := by norm_num [EMG_MAX_ADC]
  have h2 : (0:ℚ) < 512 := by norm_num
  have h3 : (512:ℚ) < EMG_MAX_ADC := by norm_num [EMG_MAX_ADC]
  exact ⟨⟨h1, (emgToIntensity_spec 2048).2.1 h1⟩,
         ⟨h2, h3, (emgToIntensity_spec 512).2.2.1 h2 h3⟩⟩

/-- Every episode the segmentation loop emits passed its
minimum-duration gate, whatever the state and input: both emission
sites are guarded by `gate ≤ end - start`. -/
theorem segAux_min_duration (f : SensorPoint → ℚ) (th gate : ℚ) :
    ∀ (data : List SensorPoint) (active : Bool) (startMs peak lastT : ℚ),
      ∀ e ∈ segAux f th gate active startMs peak lastT data,
        gate ≤ e.endMs - e.startMs := by
  intro data
  induction data with
  | nil =>
    intro active startMs peak lastT e he
    simp only [segAux] at he
    split at he
    · rename_i hcond
      rcases List.mem_singleton.mp he with rfl
      exact hcond.2
    · exact absurd he (List.not_mem_nil e)
  | cons p rest ih =>
    intro active startMs peak lastT e he
    simp only [segAux] at he
    split at he
    · split at he
      · exact ih true startMs (max peak (f p)) p.t e he
      · exact ih true p.t (f p) p.t e he
    · split at he
      · rcases List.mem_append.mp he with hl | hr
        · split at hl
          · rename_i hcond
            rcases List.mem_singleton.mp hl with rfl
            exact hcond
          · exact absurd hl (List.not_mem_nil e)
        · exact ih false startMs 0 p.t e hr
      · exact ih false startMs peak p.t e he

/-- Claim C2 — every clench episode emitted by `detectClenches` lasts at
least `MIN_CLENCH_MS` (400 ms) and has `endMs > startMs`, and every
arousal episode produced by the arousal loop inside `classifyEvents`
lasts at least `AROUSAL_MIN_MS` (2000 ms) and has `endMs > startMs`;
shorter above-threshold runs are never in the output. -/
theorem episode_min_duration (data : List SensorPoint) :
    (∀ e ∈ detectClenches data,
        MIN_CLENCH_MS ≤ e.endMs - e.startMs ∧ e.startMs < e.endMs) ∧
    (∀ e ∈ arousalPeaksOf data,
        AROUSAL_MIN_MS ≤ e.endMs - e.startMs ∧ e.startMs < e.endMs) := by
  constructor
  · intro e he
    have h := segAux_min_duration _ _ _ data false 0 0 0 e he
    have hpos : (0:ℚ) < MIN_CLENCH_MS := by norm_num [MIN_CLENCH_MS]
    exact ⟨h, by linarith⟩
  · intro e he
    have h := segAux_min_duration _ _ _ data false 0 0 0 e he
    have hpos : (0:ℚ) < AROUSAL_MIN_MS := by norm_num [AROUSAL_MIN_MS]
    exact ⟨h, by linarith⟩

/-- Witness for C2: a 500 ms above-threshold run yields the episode
`[0, 500]`, which satisfies both duration facts. -/
theorem episode_min_duration_witness :
    (⟨0, 500, 300⟩ : RawEvent) ∈
        detectClenches [⟨0, 300, 0, 36⟩, ⟨500, 0, 0, 36⟩] ∧
    MIN_CLENCH_MS ≤ (⟨0, 500, 300⟩ : RawEvent).endMs - (⟨0, 500, 300⟩ : RawEvent).startMs ∧
    (⟨0, 500, 300⟩ : RawEvent).startMs < (⟨0, 500, 300⟩ : RawEvent).endMs := by
  have hm : (⟨0, 500, 300⟩ : RawEvent) ∈
      detectClenches [⟨0, 300, 0, 36⟩, ⟨500, 0, 0, 36⟩] := by
    norm_num [detectClenches, segment, segAux, EMG_THRESHOLD, EMG_TALKING_ADC, MIN_CLENCH_MS]
  have h := (episode_min_duration [⟨0, 300, 0, 36⟩, ⟨500, 0, 0, 36⟩]).1 _ hm
  exact ⟨hm, h.1, h.2⟩

/-- Rounding fixes the value 100. -/
theorem round_hundred : round ((100 : ℚ)) = 100 := by norm_num

/-- The source's lower-clamp-only score agrees with the spec's two-sided
clamp and lies in `[0, 100]`, because all three penalties are
non-negative. -/
theorem score_clamp (c : ℕ) (h2 h3 : ℚ) (hh2 : 0 ≤ h2) (hh3 : 0 ≤ h3) :
    max 0 (round ((100 : ℚ) - min 40 ((c : ℚ) * 2) - min 30 (h2 * 0.5) - min 20 (h3 * 100)))
      = specSleepQuality c h2 h3
    ∧ 0 ≤ specSleepQuality c h2 h3 ∧ specSleepQuality c h2 h3 ≤ 100 := by
  have harg : (100 : ℚ) - min 40 ((c : ℚ) * 2) - min 30 (h2 * 0.5) - min 20 (h3 * 100)
      = (100 : ℚ) - min 40 (2 * (c : ℚ)) - min 30 (0.5 * h2) - min 20 (100 * h3) := by
    rw [mul_comm ((c : ℚ)) 2, mul_comm h2 (0.5 : ℚ), mul_comm h3 (100 : ℚ)]
  have hpen1 : (0:ℚ) ≤ min 40 (2 * (c : ℚ)) := le_min (by norm_num) (by positivity)
  have hpen2 : (0:ℚ) ≤ min 30 (0.5 * h2) := le_min (by norm_num) (mul_nonneg (by norm_num) hh2)
  have hpen3 : (0:ℚ) ≤ min 20 (100 * h3) := le_min (by norm_num) (mul_nonneg (by norm_num) hh3)
  have hx : (100 : ℚ) - min 40 (2 * (c : ℚ)) - min 30 (0.5 * h2) - min 20 (100 * h3) ≤ 100 := by
    linarith
  have hr : round ((100 : ℚ) - min 40 (2 * (c : ℚ)) - min 30 (0.5 * h2) - min 20 (100 * h3)) ≤ 100 := by
    calc round ((100 : ℚ) - min 40 (2 * (c : ℚ)) - min 30 (0.5 * h2) - min 20 (100 * h3))
        ≤ round ((100 : ℚ)) := round_mono_rat hx
      _ = 100 := round_hundred
  have hmaxle : max 0 (round ((100 : ℚ) - min 40 (2 * (c : ℚ)) - min 30 (0.5 * h2)
      - min 20 (100 * h3))) ≤ 100 := max_le (by norm_num) hr
  refine ⟨?_, ?_, ?_⟩
  · rw [harg]
    unfold specSleepQuality
    exact (min_eq_right hmaxle).symm
  · unfold specSleepQuality
    exact le_min (by norm_num) (le_max_left _ _)
  · unfold specSleepQuality
    exact min_le_left _ _

/-- For non-empty data, the quality score of `computeReport` is the
lower-clamped rounded penalty sum, read off the source. -/
theorem computeReport_score_eq (sq : ℚ → ℚ) (s u : String) (dur : ℚ)
    (data : List SensorPoint) (h : ¬ data = []) :
    (computeReport sq s u data dur).sleepQualityScore
      = max 0 (round ((100 : ℚ)
          - min 40 (((classifyEvents data).clenchEvents.length : ℚ) * 2)
          - min 30 (stdDev sq (data.map (fun d => d.hr)) * 0.5)
          - min 20 (|tempLast data - tempFirst data| * 100))) := by
  unfold computeReport
  rw [if_neg h]

/-- For non-empty data, the quality score of `computeLiveStats` (without
precomputed events) is the same expression. -/
theorem computeLiveStats_score_eq (sq : ℚ → ℚ)
    (data : List SensorPoint) (h : ¬ data = []) :
    (computeLiveStats sq data none).sleepQualityScore
      = max 0 (round ((100 : ℚ)
          - min 40 (((classifyEvents data).clenchEvents.length : ℚ) * 2)
          - min 30 (stdDev sq (data.map (fun d => d.hr)) * 0.5)
          - min 20 (|tempLast data - tempFirst data| * 100))) := by
  unfold computeLiveStats
  rw [if_neg h]
  rfl

/-- Claim C1 — for every non-empty sample sequence the sleep-quality
score of `computeReport` and of `computeLiveStats` equals the rounded
`100 - clenchPenalty - hrVariancePenalty - tempDriftPenalty` clamped to
`[0, 100]` (with the capped penalties of the spec), and for every
sample sequence whatsoever the score lies in `[0, 100]`. -/
theorem sleepQuality_clamped (sq : ℚ → ℚ) (hsq : ∀ x, 0 ≤ x → 0 ≤ sq x)
    (s u : String) (dur : ℚ) (data : List SensorPoint) (h : data ≠ []) :
    (computeReport sq s u data dur).sleepQualityScore
      = specSleepQuality (clenchCountOf data)
          (stdDev sq (data.map (fun d => d.hr))) (|tempLast data - tempFirst data|)
    ∧ (computeLiveStats sq data none).sleepQualityScore
      = specSleepQuality (clenchCountOf data)
          (stdDev sq (data.map (fun d => d.hr))) (|tempLast data - tempFirst data|)
    ∧ (∀ data' : List SensorPoint,
        0 ≤ (computeReport sq s u data' dur).sleepQualityScore
        ∧ (computeReport sq s u data' dur).sleepQualityScore ≤ 100
        ∧ 0 ≤ (computeLiveStats sq data' none).sleepQualityScore
        ∧ (computeLiveStats sq data' none).sleepQualityScore ≤ 100) := by
  have hsd : 0 ≤ stdDev sq (data.map (fun d => d.hr)) := stdDev_nonneg sq hsq _
  have habs : 0 ≤ |tempLast data - tempFirst data| := abs_nonneg _
  have hclamp := score_clamp ((classifyEvents data).clenchEvents.length)
    (stdDev sq (data.map (fun d => d.hr))) (|tempLast data - tempFirst data|) hsd habs
  refine ⟨?_, ?_, ?_⟩
  · rw [computeReport_score_eq sq s u dur data h]
    exact hclamp.1
  · rw [computeLiveStats_score_eq sq data h]
    exact hclamp.1
  · intro data'
    by_cases h' : data' = []
    · subst h'
      refine ⟨?_, ?_, ?_, ?_⟩ <;> norm_num [computeReport, computeLiveStats]
    · have hsd' : 0 ≤ stdDev sq (data'.map (fun d => d.hr)) := stdDev_nonneg sq hsq _
      have hclamp' := score_clamp ((classifyEvents data').clenchEvents.length)
        (stdDev sq (data'.map (fun d => d.hr))) (|tempLast data' - tempFirst data'|)
        hsd' (abs_nonneg _)
      rw [computeReport_score_eq sq s u dur data' h', computeLiveStats_score_eq sq data' h',
        hclamp'.1]
      exact ⟨hclamp'.2.1, hclamp'.2.2, hclamp'.2.1, hclamp'.2.2⟩

/-- Concrete one-sample input for the C1 witness. -/
def wDataC1 : List SensorPoint := [⟨0, 0, 50, 36⟩]

/-- The constantly-zero stand-in for `Math.sqrt` used by witnesses. -/
def sqZero : ℚ → ℚ := fun _ => 0

/-- Witness for C1 at a concrete square root, session and one-sample
input. -/
theorem sleepQuality_clamped_witness :
    (∀ x : ℚ, 0 ≤ x → 0 ≤ sqZero x) ∧
    (wDataC1 ≠ []) ∧
    ((computeReport sqZero "s" "u" wDataC1 10).sleepQualityScore
        = specSleepQuality (clenchCountOf wDataC1)
            (stdDev sqZero (wDataC1.map (fun d => d.hr)))
            (|tempLast wDataC1 - tempFirst wDataC1|)
      ∧ (computeLiveStats sqZero wDataC1 none).sleepQualityScore
        = specSleepQuality (clenchCountOf wDataC1)
            (stdDev sqZero (wDataC1.map (fun d => d.hr)))
            (|tempLast wDataC1 - tempFirst wDataC1|)
      ∧ (∀ data' : List SensorPoint,
          0 ≤ (computeReport sqZero "s" "u" data' 10).sleepQualityScore
          ∧ (computeReport sqZero "s" "u" data' 10).sleepQualityScore ≤ 100
          ∧ 0 ≤ (computeLiveStats sqZero data' none).sleepQualityScore
          ∧ (computeLiveStats sqZero data' none).sleepQualityScore ≤ 100)) := by
  have hsq : ∀ x : ℚ, 0 ≤ x → 0 ≤ sqZero x := fun _ _ => le_refl 0
  have hne : wDataC1 ≠ [] := by simp [wDataC1]
  exact ⟨hsq, hne, sleepQuality_clamped sqZero hsq "s" "u" 10 wDataC1 hne⟩

/-- Rounding a percentage `k / n * 100` with `k ≤ n` stays in `[0, 100]`. -/
theorem round_pct_bounds (k n : ℕ) (hk : k ≤ n) (hn : n ≠ 0) :
    0 ≤ round (((k : ℚ) / (n : ℚ)) * 100) ∧ round (((k : ℚ) / (n : ℚ)) * 100) ≤ 100 := by
  have hn' : (0:ℚ) < (n : ℚ) := by exact_mod_cast Nat.pos_of_ne_zero hn
  have hkq : (k : ℚ) ≤ (n : ℚ) := by exact_mod_cast hk
  have h0 : (0:ℚ) ≤ (k : ℚ) / (n : ℚ) * 100 := by positivity
  have h1 : (k : ℚ) / (n : ℚ) * 100 ≤ 100 := by
    rw [div_mul_eq_mul_div, div_le_iff hn']
    nlinarith
  constructor
  · have := round_mono_rat h0
    simpa using this
  · calc round (((k : ℚ) / (n : ℚ)) * 100) ≤ round ((100:ℚ)) := round_mono_rat h1
      _ = 100 := round_hundred

/-- For non-empty data, the stress likelihood of `computeReport`, read
off the source. -/
theorem computeReport_stress_eq (sq : ℚ → ℚ) (s u : String) (dur : ℚ)
    (data : List SensorPoint) (h : ¬ data = []) :
    (computeReport sq s u data dur).stressLikelihood
      = if (classifyEvents data).clenchEvents.length = 0 then 0
        else round (((arousalLinkedCountOf data : ℚ)
          / ((classifyEvents data).clenchEvents.length : ℚ)) * 100) := by
  unfold computeReport
  rw [if_neg h]
  rfl

/-- For non-empty data, the stress likelihood of `computeLiveStats`
(without precomputed events), read off the source. -/
theorem computeLiveStats_stress_eq (sq : ℚ → ℚ)
    (data : List SensorPoint) (h : ¬ data = []) :
    (computeLiveStats sq data none).stressLikelihood
      = if (classifyEvents data).clenchEvents.length = 0 then 0
        else round (((arousalLinkedCountOf data : ℚ)
          / ((classifyEvents data).clenchEvents.length : ℚ)) * 100) := by
  unfold computeLiveStats
  rw [if_neg h]
  rfl

/-- Claim C6 — the stress likelihood of `computeReport` and of
`computeLiveStats` is `round(100 * arousalLinkedCount / totalCount)`
when there are classified episodes and exactly `0` when there are none,
and it always lies in `[0, 100]`. -/
theorem stressLikelihood_spec (sq : ℚ → ℚ) (s u : String) (dur : ℚ)
    (data : List SensorPoint) :
    ((computeReport sq s u data dur).stressLikelihood
        = if clenchCountOf data = 0 then 0
          else round ((100 : ℚ) * (arousalLinkedCountOf data : ℚ) / (clenchCountOf data : ℚ)))
    ∧ ((computeLiveStats sq data none).stressLikelihood
        = if clenchCountOf data = 0 then 0
          else round ((100 : ℚ) * (arousalLinkedCountOf data : ℚ) / (clenchCountOf data : ℚ)))
    ∧ 0 ≤ (computeReport sq s u data dur).stressLikelihood
    ∧ (computeReport sq s u data dur).stressLikelihood ≤ 100
    ∧ 0 ≤ (computeLiveStats sq data none).stressLikelihood
    ∧ (computeLiveStats sq data none).stressLikelihood ≤ 100 := by
  have hk : arousalLinkedCountOf data ≤ clenchCountOf data :=
    List.length_filter_le _ _
  by_cases h : data = []
  · subst h
    refine ⟨?_, ?_, ?_, ?_, ?_, ?_⟩ <;>
      norm_num [computeReport, computeLiveStats, clenchCountOf, classifyEvents]
  · have hform : (if (classifyEvents data).clenchEvents.length = 0 then (0:ℤ)
        else round (((arousalLinkedCountOf data : ℚ)
          / ((classifyEvents data).clenchEvents.length : ℚ)) * 100))
      = if clenchCountOf data = 0 then 0
        else round ((100 : ℚ) * (arousalLinkedCountOf data : ℚ) / (clenchCountOf data : ℚ)) := by
      unfold clenchCountOf
      split
      · rfl
      · congr 1
        ring
    have hbounds : 0 ≤ (if clenchCountOf data = 0 then (0:ℤ)
          else round ((100 : ℚ) * (arousalLinkedCountOf data : ℚ) / (clenchCountOf data : ℚ)))
        ∧ (if clenchCountOf data = 0 then (0:ℤ)
          else round ((100 : ℚ) * (arousalLinkedCountOf data : ℚ) / (clenchCountOf data : ℚ))) ≤ 100 := by
      split
      · norm_num
      · rename_i hn
        have heq : (100 : ℚ) * (arousalLinkedCountOf data : ℚ) / (clenchCountOf data : ℚ)
            = ((arousalLinkedCountOf data : ℚ) / (clenchCountOf data : ℚ)) * 100 := by ring
        rw [heq]
        exact round_pct_bounds _ _ hk hn
    rw [computeReport_stress_eq sq s u dur data h, computeLiveStats_stress_eq sq data h, hform]
    exact ⟨rfl, rfl, hbounds.1, hbounds.2, hbounds.1, hbounds.2⟩

/-- Claim C3 — a classified clench event is labelled `arousal-linked`
exactly when the maximum activation in the backward window strictly
exceeds `ACTIVATION_PRECEDE`, and `isolated` exactly otherwise, so each
event carries exactly one of the two labels. -/
theorem clench_classification_iff (data : List SensorPoint) (e : ClassifiedClenchEvent)
    (he : e ∈ (classifyEvents data).clenchEvents) :
    (e.type = ClenchType.arousalLinked ↔
        ACTIVATION_PRECEDE < precedingMaxAct data e.startMs) ∧
    (e.type = ClenchType.isolated ↔
        ¬ ACTIVATION_PRECEDE < precedingMaxAct data e.startMs) := by
  unfold classifyEvents at he
  split at he
  · exact absurd he (List.not_mem_nil e)
  · rcases List.mem_map.mp he with ⟨ev, _, rfl⟩
    have hst : (classifyOne data ev).startMs = ev.startMs := rfl
    have hty : (classifyOne data ev).type
        = (if ACTIVATION_PRECEDE < precedingMaxAct data ev.startMs
           then ClenchType.arousalLinked else ClenchType.isolated) := rfl
    rw [hst, hty]
    by_cases hact : ACTIVATION_PRECEDE < precedingMaxAct data ev.startMs
    · rw [if_pos hact]
      exact ⟨iff_of_true rfl hact, iff_of_false (by decide) (not_not_intro hact)⟩
    · rw [if_neg hact]
      exact ⟨iff_of_false (by decide) hact, iff_of_true rfl hact⟩

/-- Concrete input for the C3 witness: one 1500 ms clench with a flat
zero heart rate, hence an empty activation window and an `isolated`
label. -/
def wDataC3 : List SensorPoint := [⟨0, 300, 0, 36⟩, ⟨1000, 300, 0, 36⟩, ⟨1500, 0, 0, 36⟩]

/-- Witness for C3 on `wDataC3`. -/
theorem clench_classification_iff_witness :
    classifyOne wDataC3 ⟨0, 1500, 300⟩ ∈ (classifyEvents wDataC3).clenchEvents ∧
    (((classifyOne wDataC3 ⟨0, 1500, 300⟩).type = ClenchType.arousalLinked ↔
        ACTIVATION_PRECEDE <
          precedingMaxAct wDataC3 (classifyOne wDataC3 ⟨0, 1500, 300⟩).startMs) ∧
     ((classifyOne wDataC3 ⟨0, 1500, 300⟩).type = ClenchType.isolated ↔
        ¬ ACTIVATION_PRECEDE <
          precedingMaxAct wDataC3 (classifyOne wDataC3 ⟨0, 1500, 300⟩).startMs)) := by
  have hd : (⟨0, 1500, 300⟩ : RawEvent) ∈ detectClenches wDataC3 := by
    norm_num [wDataC3, detectClenches, segment, segAux, EMG_THRESHOLD, EMG_TALKING_ADC,
      MIN_CLENCH_MS]
  have hm : classifyOne wDataC3 ⟨0, 1500, 300⟩ ∈ (classifyEvents wDataC3).clenchEvents := by
    unfold classifyEvents
    rw [if_neg (by simp [wDataC3])]
    exact List.mem_map_of_mem _ hd
  exact ⟨hm, clench_classification_iff wDataC3 _ hm⟩

/-- Claim C4 — a detected arousal episode is reported in
`arousalOnlyEvents` exactly when no raw clench episode starts inside
`[ap.startMs - 5000, ap.endMs + AROUSAL_FOLLOW_MS]`. -/
theorem arousalOnly_iff_no_clench_nearby (data : List SensorPoint) (ap : RawEvent)
    (hap : ap ∈ arousalPeaksOf data) :
    (ap ∈ (classifyEvents data).arousalOnlyEvents ↔
      ∀ ev ∈ detectClenches data,
        ¬(ap.startMs - 5000 ≤ ev.startMs ∧ ev.startMs ≤ ap.endMs + AROUSAL_FOLLOW_MS)) := by
  unfold classifyEvents
  split
  · rename_i hd
    subst hd
    exact absurd hap (by simp [arousalPeaksOf, segment, segAux])
  · show ap ∈ (arousalPeaksOf data).filter
        (fun a => !clenchNear (detectClenches data) a) ↔ _
    rw [List.mem_filter]
    simp only [hap, true_and, clenchNear, Bool.not_eq_true', List.any_eq_false,
      Bool.and_eq_true, decide_eq_true_eq, not_and]

/-- Concrete input for the C4 witness: heart rate 20 % above the median
baseline for 3 s and no clench at all, giving one surviving
arousal-only episode. -/
def wDataC4 : List SensorPoint :=
  [⟨0, 0, 50, 36⟩, ⟨1000, 0, 60, 36⟩, ⟨2000, 0, 60, 36⟩, ⟨4000, 0, 50, 36⟩, ⟨5000, 0, 50, 36⟩]

/-- Witness for C4 on `wDataC4`. -/
theorem arousalOnly_iff_no_clench_nearby_witness :
    (⟨1000, 4000, 20⟩ : RawEvent) ∈ arousalPeaksOf wDataC4 ∧
    ((⟨1000, 4000, 20⟩ : RawEvent) ∈ (classifyEvents wDataC4).arousalOnlyEvents ↔
      ∀ ev ∈ detectClenches wDataC4,
        ¬((⟨1000, 4000, 20⟩ : RawEvent).startMs - 5000 ≤ ev.startMs ∧
          ev.startMs ≤ (⟨1000, 4000, 20⟩ : RawEvent).endMs + AROUSAL_FOLLOW_MS)) := by
  have hmap : wDataC4.map (fun d => d.hr) = [(50:ℚ), 60, 60, 50, 50] := by
    simp [wDataC4]
  have hb : hrBaselineOf [(⟨0, 0, 50, 36⟩ : SensorPoint), ⟨1000, 0, 60, 36⟩,
      ⟨2000, 0, 60, 36⟩, ⟨4000, 0, 50, 36⟩, ⟨5000, 0, 50, 36⟩] = 50 := by
    show hrBaselineOf wDataC4 = 50
    unfold hrBaselineOf
    rw [hmap]
    unfold median
    rw [if_neg (by simp)]
    norm_num [List.insertionSort, List.orderedInsert, List.getD]
  have ha1 : hrToActivation 50 50 = 0 := by norm_num [hrToActivation]
  have ha2 : hrToActivation 60 50 = 20 := by norm_num [hrToActivation]
  have hap : (⟨1000, 4000, 20⟩ : RawEvent) ∈ arousalPeaksOf wDataC4 := by
    norm_num [arousalPeaksOf, segment, wDataC4, segAux, hb, ha1, ha2,
      AROUSAL_DETECT_PCT, AROUSAL_MIN_MS]
  exact ⟨hap, arousalOnly_iff_no_clench_nearby wDataC4 _ hap⟩

/-- While inactive, the segmentation loop never reads `startMs`, `peak`
or `lastT`, so their values are irrelevant. -/
theorem segAux_inactive_eq (f : SensorPoint → ℚ) (th gate : ℚ) :
    ∀ (data : List SensorPoint) (s₁ k₁ t₁ s₂ k₂ t₂ : ℚ),
      segAux f th gate false s₁ k₁ t₁ data = segAux f th gate false s₂ k₂ t₂ data := by
  intro data
  induction data with
  | nil => intro s₁ k₁ t₁ s₂ k₂ t₂; simp [segAux]
  | cons p rest ih =>
    intro s₁ k₁ t₁ s₂ k₂ t₂
    by_cases h : th ≤ f p
    · simp only [segAux, if_pos h]
      norm_num
    · simp only [segAux, if_neg h]
      norm_num
      exact ih s₁ k₁ p.t s₂ k₂ p.t

/-- Main invariant of the segmentation loop: when timestamps are
non-decreasing from `lastT` onward and the open interval (if any)
started no later than `lastT`, the emitted episodes are pairwise
ordered (`endMs ≤ startMs` of any later episode) and all start at or
after the current frontier. -/
theorem segAux_chain (f : SensorPoint → ℚ) (th gate : ℚ) :
    ∀ (data : List SensorPoint) (active : Bool) (startMs peak lastT : ℚ),
      List.Chain' (· ≤ ·) (lastT :: data.map (fun p => p.t)) →
      (active = true → startMs ≤ lastT) →
      List.Pairwise (fun a b : RawEvent => a.endMs ≤ b.startMs)
          (segAux f th gate active startMs peak lastT data)
      ∧ ∀ e ∈ segAux f th gate active startMs peak lastT data,
          (if active = true then startMs else lastT) ≤ e.startMs := by
  intro data
  induction data with
  | nil =>
    intro active startMs peak lastT _ _
    constructor
    · simp only [segAux]
      split
      · exact List.pairwise_singleton _ _
      · exact List.Pairwise.nil
    · intro e he
      simp only [segAux] at he
      split at he
      · rename_i hcond
        rcases List.mem_singleton.mp he with rfl
        rw [if_pos hcond.1]
      · exact absurd he (List.not_mem_nil e)
  | cons p rest ih =>
    intro active startMs peak lastT hchain hact
    rw [List.map_cons] at hchain
    have hlt : lastT ≤ p.t := (List.chain'_cons.mp hchain).1
    have hchain' : List.Chain' (· ≤ ·) (p.t :: rest.map (fun q => q.t)) :=
      (List.chain'_cons.mp hchain).2
    cases active with
    | true =>
      have hst : startMs ≤ lastT := hact rfl
      by_cases hth : th ≤ f p
      · have hrec := ih true startMs (max peak (f p)) p.t hchain'
          (fun _ => le_trans hst hlt)
        simp only [segAux, if_pos hth, if_pos rfl] at hrec ⊢
        exact ⟨hrec.1, fun e he => hrec.2 e he⟩
      · have hrec := ih false startMs 0 p.t hchain' (fun h => nomatch h)
        simp only [if_neg (by simp : ¬ (false = true))] at hrec
        simp only [segAux, if_neg hth, if_pos rfl]
        constructor
        · by_cases hg : gate ≤ p.t - startMs
          · rw [if_pos hg, List.singleton_append]
            exact List.Pairwise.cons (fun b hb => hrec.2 b hb) hrec.1
          · rw [if_neg hg, List.nil_append]
            exact hrec.1
        · intro e he
          rcases List.mem_append.mp he with hl | hr
          · split at hl
            · rcases List.mem_singleton.mp hl with rfl
              exact le_refl _
            · exact absurd hl (List.not_mem_nil e)
          · exact le_trans (le_trans hst hlt) (hrec.2 e hr)
    | false =>
      by_cases hth : th ≤ f p
      · have hrec := ih true p.t (f p) p.t hchain' (fun _ => le_refl _)
        simp only [if_pos rfl] at hrec
        simp only [segAux, if_pos hth, if_neg (by simp : ¬ (false = true))]
        exact ⟨hrec.1, fun e he => le_trans hlt (hrec.2 e he)⟩
      · have hrec := ih false startMs peak p.t hchain' (fun h => nomatch h)
        simp only [if_neg (by simp : ¬ (false = true))] at hrec
        simp only [segAux, if_neg hth, if_neg (by simp : ¬ (false = true))]
        exact ⟨hrec.1, fun e he => le_trans hlt (hrec.2 e he)⟩

/-- Claim C5 — on a sample sequence with non-decreasing timestamps,
`detectClenches` returns pairwise non-overlapping intervals (each
episode ends no later than any later episode starts) in non-decreasing
`startMs` order. -/
theorem detectClenches_disjoint_sorted (data : List SensorPoint)
    (h : List.Chain' (· ≤ ·) (data.map (fun p => p.t))) :
    List.Pairwise (fun a b : RawEvent => a.endMs ≤ b.startMs) (detectClenches data) ∧
    List.Pairwise (fun a b : RawEvent => a.startMs ≤ b.startMs) (detectClenches data) := by
  have hp : List.Pairwise (fun a b : RawEvent => a.endMs ≤ b.startMs) (detectClenches data) := by
    cases data with
    | nil => simp [detectClenches, segment, segAux]
    | cons p rest =>
      show List.Pairwise _
        (segAux (fun q => q.emg) EMG_THRESHOLD MIN_CLENCH_MS false 0 0 0 (p :: rest))
      rw [segAux_inactive_eq (fun q => q.emg) EMG_THRESHOLD MIN_CLENCH_MS
        (p :: rest) 0 0 0 0 0 p.t]
      have hchain : List.Chain' (· ≤ ·) (p.t :: (p :: rest).map (fun q => q.t)) := by
        rw [List.map_cons]
        exact List.chain'_cons.mpr ⟨le_refl _, by rwa [List.map_cons] at h⟩
      exact (segAux_chain (fun q => q.emg) EMG_THRESHOLD MIN_CLENCH_MS
        (p :: rest) false 0 0 p.t hchain (fun hh => nomatch hh)).1
  refine ⟨hp, hp.imp_of_mem ?_⟩
  intro a b ha _ hab
  have hda := segAux_min_duration (fun q => q.emg) EMG_THRESHOLD MIN_CLENCH_MS
    data false 0 0 0 a ha
  have hm : (0:ℚ) < MIN_CLENCH_MS := by norm_num [MIN_CLENCH_MS]
  linarith

/-- Concrete input for the C5 witness: two separated clench runs. -/
def wDataC5 : List SensorPoint :=
  [⟨0, 300, 0, 36⟩, ⟨500, 0, 0, 36⟩, ⟨1000, 300, 0, 36⟩, ⟨1600, 0, 0, 36⟩]

/-- Witness for C5 on `wDataC5`. -/
theorem detectClenches_disjoint_sorted_witness :
    List.Chain' (· ≤ ·) (wDataC5.map (fun p => p.t)) ∧
    (List.Pairwise (fun a b : RawEvent => a.endMs ≤ b.startMs) (detectClenches wDataC5) ∧
     List.Pairwise (fun a b : RawEvent => a.startMs ≤ b.startMs) (detectClenches wDataC5)) := by
  have hc : List.Chain' (· ≤ ·) (wDataC5.map (fun p => p.t)) := by
    norm_num [wDataC5, List.chain'_cons, List.chain'_singleton]
  exact ⟨hc, detectClenches_disjoint_sorted wDataC5 hc⟩

/-- The value returned by the source's `median` is a genuine median of
a non-empty list: it is one of its elements, at most half the elements
lie strictly below it and at most half lie strictly above it. -/
theorem median_mem_and_counts (values : List ℚ) (h : values ≠ []) :
    median values ∈ values ∧
    2 * values.countP (fun x => decide (x < median values)) ≤ values.length ∧
    2 * values.countP (fun x => decide (median values < x)) ≤ values.length := by
  set s := List.insertionSort (· ≤ ·) values with hs_def
  have hsort : List.Sorted (· ≤ ·) s := List.sorted_insertionSort _ values
  have hperm : s.Perm values := List.perm_insertionSort _ values
  have hlen : s.length = values.length := hperm.length_eq
  have hn : 0 < values.length := List.length_pos.mpr h
  have hk : s.length / 2 < s.length := Nat.div_lt_self (by omega) (by norm_num)
  have hmed : median values = s[s.length / 2] := by
    unfold median
    rw [if_neg h, ← hs_def, List.getD_eq_getElem?_getD, List.getElem?_eq_getElem hk]
    rfl
  set k := s.length / 2 with hk_def
  set m := s[k] with hm_def
  have hmem : m ∈ s := List.getElem_mem hk
  have hdropk : s.drop k = m :: s.drop (k + 1) := List.drop_eq_getElem_cons hk
  have hbetween : ∀ a ∈ s.take k, ∀ b ∈ s.drop k, a ≤ b := by
    have h2 := hsort
    rw [← List.take_append_drop k s] at h2
    exact (List.pairwise_append.mp h2).2.2
  have hbetween' : ∀ a ∈ s.take (k + 1), ∀ b ∈ s.drop (k + 1), a ≤ b := by
    have h2 := hsort
    rw [← List.take_append_drop (k + 1) s] at h2
    exact (List.pairwise_append.mp h2).2.2
  have hm_take : m ∈ s.take (k + 1) := by
    rw [List.take_succ, List.getElem?_eq_getElem hk]
    exact List.mem_append.mpr (Or.inr (by simp [← hm_def]))
  have htake_le : ∀ x ∈ s.take (k + 1), x ≤ m := by
    intro x hx
    rw [List.take_succ, List.getElem?_eq_getElem hk] at hx
    rcases List.mem_append.mp hx with hl | hr
    · exact hbetween x hl m (by rw [hdropk]; exact List.mem_cons_self _ _)
    · have : x = m := by simpa [← hm_def] using hr
      exact this.le
  have hdrop_ge : ∀ x ∈ s.drop k, m ≤ x := by
    intro x hx
    rw [hdropk] at hx
    rcases List.mem_cons.mp hx with rfl | hx'
    · exact le_refl _
    · exact hbetween' m hm_take x hx'
  have hcount_lt : s.countP (fun x => decide (x < m)) ≤ k := by
    have hsplit : s.countP (fun x => decide (x < m))
        = (s.take k).countP (fun x => decide (x < m))
          + (s.drop k).countP (fun x => decide (x < m)) := by
      conv_lhs => rw [← List.take_append_drop k s]
      rw [List.countP_append]
    have hz : (s.drop k).countP (fun x => decide (x < m)) = 0 := by
      refine List.countP_eq_zero.mpr ?_
      intro a ha
      simpa using not_lt.mpr (hdrop_ge a ha)
    have hle : (s.take k).countP (fun x => decide (x < m)) ≤ k := by
      calc (s.take k).countP (fun x => decide (x < m)) ≤ (s.take k).length :=
            List.countP_le_length _
        _ ≤ k := by rw [List.length_take]; exact min_le_left _ _
    omega
  have hcount_gt : s.countP (fun x => decide (m < x)) ≤ s.length - (k + 1) := by
    have hsplit : s.countP (fun x => decide (m < x))
        = (s.take (k + 1)).countP (fun x => decide (m < x))
          + (s.drop (k + 1)).countP (fun x => decide (m < x)) := by
      conv_lhs => rw [← List.take_append_drop (k + 1) s]
      rw [List.countP_append]
    have hz : (s.take (k + 1)).countP (fun x => decide (m < x)) = 0 := by
      refine List.countP_eq_zero.mpr ?_
      intro a ha
      simpa using not_lt.mpr (htake_le a ha)
    have hle : (s.drop (k + 1)).countP (fun x => decide (m < x)) ≤ s.length - (k + 1) := by
      calc (s.drop (k + 1)).countP (fun x => decide (m < x)) ≤ (s.drop (k + 1)).length :=
            List.countP_le_length _
        _ = s.length - (k + 1) := List.length_drop _ _
    omega
  have hcv_lt : values.countP (fun x => decide (x < m)) = s.countP (fun x => decide (x < m)) :=
    (hperm.countP_eq _).symm
  have hcv_gt : values.countP (fun x => decide (m < x)) = s.countP (fun x => decide (m < x)) :=
    (hperm.countP_eq _).symm
  rw [hmed]
  refine ⟨hperm.mem_iff.mp hmem, ?_, ?_⟩
  · rw [hcv_lt]
    omega
  · rw [hcv_gt]
    omega

/-- Claim C7 — the heart-rate baseline used by `classifyEvents` is the
`median` of all `hr` values of the whole sample set: it equals
`median (data.map hr)`, is itself one of the `hr` values, and at most
half of the samples have a strictly smaller and at most half a strictly
larger heart rate. -/
theorem hrBaseline_is_median (data : List SensorPoint) (h : data ≠ []) :
    hrBaselineOf data = median (data.map (fun d => d.hr)) ∧
    hrBaselineOf data ∈ data.map (fun d => d.hr) ∧
    2 * ((data.map (fun d => d.hr)).countP (fun x => decide (x < hrBaselineOf data)))
      ≤ data.length ∧
    2 * ((data.map (fun d => d.hr)).countP (fun x => decide (hrBaselineOf data < x)))
      ≤ data.length := by
  have hne : data.map (fun d => d.hr) ≠ [] := by
    intro hcontra
    exact h (List.map_eq_nil_iff.mp hcontra)
  have hm := median_mem_and_counts (data.map (fun d => d.hr)) hne
  have hlm : (data.map (fun d => d.hr)).length = data.length := List.length_map _ _
  exact ⟨rfl, hm.1, by rw [← hlm]; exact hm.2.1, by rw [← hlm]; exact hm.2.2⟩

/-- Witness for C7 on a concrete three-sample input. -/
theorem hrBaseline_is_median_witness :
    ([(⟨0, 0, 50, 36⟩ : SensorPoint), ⟨100, 0, 70, 36⟩, ⟨200, 0, 60, 36⟩] ≠ []) ∧
    (hrBaselineOf [⟨0, 0, 50, 36⟩, ⟨100, 0, 70, 36⟩, ⟨200, 0, 60, 36⟩]
        = median ([(⟨0, 0, 50, 36⟩ : SensorPoint), ⟨100, 0, 70, 36⟩, ⟨200, 0, 60, 36⟩].map
            (fun d => d.hr)) ∧
     hrBaselineOf [⟨0, 0, 50, 36⟩, ⟨100, 0, 70, 36⟩, ⟨200, 0, 60, 36⟩]
        ∈ [(⟨0, 0, 50, 36⟩ : SensorPoint), ⟨100, 0, 70, 36⟩, ⟨200, 0, 60, 36⟩].map
            (fun d => d.hr) ∧
     2 * (([(⟨0, 0, 50, 36⟩ : SensorPoint), ⟨100, 0, 70, 36⟩, ⟨200, 0, 60, 36⟩].map
            (fun d => d.hr)).countP
          (fun x => decide (x < hrBaselineOf [⟨0, 0, 50, 36⟩, ⟨100, 0, 70, 36⟩, ⟨200, 0, 60, 36⟩])))
        ≤ ([(⟨0, 0, 50, 36⟩ : SensorPoint), ⟨100, 0, 70, 36⟩, ⟨200, 0, 60, 36⟩] : List SensorPoint).length ∧
     2 * (([(⟨0, 0, 50, 36⟩ : SensorPoint), ⟨100, 0, 70, 36⟩, ⟨200, 0, 60, 36⟩].map
            (fun d => d.hr)).countP
          (fun x => decide (hrBaselineOf [⟨0, 0, 50, 36⟩, ⟨100, 0, 70, 36⟩, ⟨200, 0, 60, 36⟩] < x)))
        ≤ ([(⟨0, 0, 50, 36⟩ : SensorPoint), ⟨100, 0, 70, 36⟩, ⟨200, 0, 60, 36⟩] : List SensorPoint).length) := by
  have hne : ([(⟨0, 0, 50, 36⟩ : SensorPoint), ⟨100, 0, 70, 36⟩, ⟨200, 0, 60, 36⟩] : List SensorPoint) ≠ [] := by
    simp
  exact ⟨hne, hrBaseline_is_median _ hne⟩

end SleepSense
